import Mathlib

/-!
Verification of the manwe client library (resource/session layer).

The Python source is embedded shallowly: Python's one dynamic value type
becomes `PyValue`, the field-descriptor classes of `fields.py` become
`FieldKind` with `to_python`/`from_python` conversion functions, the
resource state (`_values`/`_dirty`) becomes `RState`, and network effects
are made explicit as request lists.  Where a Python operation raises an
exception, the embedded function returns `Option.none` or an explicit
exception value.
-/

set_option maxRecDepth 8000

namespace Manwe

/-- A Python value as it flows through the manwe client.  Both "API
values" (parsed JSON) and "Python values" (what getters return) live in
this one type, as they do in Python.  `frozenset` is an immutable set;
we represent it by the list of its members in iteration order (Python
set equality is coarser, but all values compared in the theorems are
duplicate-free and order-stable).  `resource` is a fetched resource
proxy, identified by its URI (`Resource.__eq__` compares URIs).
`stream` is the lazy byte-chunk iterator a Blob field getter returns. -/
inductive PyValue where
  | none
  | bool (b : Bool)
  | int (n : Int)
  | str (s : String)
  | list (xs : List PyValue)
  | frozenset (xs : List PyValue)
  | dict (kvs : List (String × PyValue))
  | datetime (year month day hour minute second : Nat)
  | resource (uri : String)
  | stream (uri : String)

/-- Python dict access `d[k]` restricted to string keys: the binding for
the first occurrence of `k`, if any. -/
def dictGet : List (String × PyValue) → String → Option PyValue
  | [], _ => Option.none
  | (k, v) :: rest, key => if k = key then some v else dictGet rest key

/-- Python `d.get(k)`: like `dictGet` but `None` instead of a `KeyError`
when the key is missing (used by `ResourceMeta._getter` on `_values`). -/
def dictGetD (d : List (String × PyValue)) (key : String) : PyValue :=
  (dictGet d key).getD .none

/-- Python dict assignment `d[k] = v`: replaces the first binding of `k`
in place, or appends a new binding (dicts preserve insertion order). -/
def dictSet : List (String × PyValue) → String → PyValue → List (String × PyValue)
  | [], key, v => [(key, v)]
  | (k, w) :: rest, key, v =>
    if k = key then (key, v) :: rest else (k, w) :: dictSet rest key v

/-- The field-descriptor classes defined in `fields.py`.  A `Set` field
carries the descriptor for its members, a `Link` field carries the key
of the linked resource type. -/
inductive FieldKind where
  | boolean
  | integer
  | string
  | link (resourceKey : String)
  | dateTime
  | blob
  | set (member : FieldKind)
  | task
  | queries
deriving DecidableEq

/-- `datetime.isoformat()` for a datetime with zero microseconds:
`YYYY-MM-DDTHH:MM:SS`, fields zero-padded. -/
def isoformat (y mo d h mi s : Nat) : String :=
  (if y < 10 then "000" ++ toString y
   else if y < 100 then "00" ++ toString y
   else if y < 1000 then "0" ++ toString y
   else toString y)
  ++ "-" ++ (if mo < 10 then "0" ++ toString mo else toString mo)
  ++ "-" ++ (if d < 10 then "0" ++ toString d else toString d)
  ++ "T" ++ (if h < 10 then "0" ++ toString h else toString h)
  ++ ":" ++ (if mi < 10 then "0" ++ toString mi else toString mi)
  ++ ":" ++ (if s < 10 then "0" ++ toString s else toString s)

/-- Split a character list at every occurrence of a separator. -/
def splitOnChar (sep : Char) : List Char → List (List Char)
  | [] => [[]]
  | c :: rest =>
    let parts := splitOnChar sep rest
    if c = sep then [] :: parts
    else
      match parts with
      | [] => [[c]]
      | p :: ps => (c :: p) :: ps

/-- Read a non-empty all-digit character list as a decimal number. -/
def charsToNat? (cs : List Char) : Option Nat :=
  if cs.isEmpty ∨ ¬cs.all Char.isDigit then Option.none
  else some (cs.foldl (fun n c => 10 * n + (c.toNat - 48)) 0)

/-- `dateutil.parser.parse` restricted to the ISO-8601 shape the server
emits and `isoformat` produces (`YYYY-MM-DDTHH:MM:SS`); an unparseable
string is a `ValueError`, embedded as `Option.none`. -/
def parseTimestamp (str : String) : Option PyValue :=
  match splitOnChar 'T' str.data with
  | [date, time] =>
    match splitOnChar '-' date, splitOnChar ':' time with
    | [ys, mos, ds], [hs, mis, ss] => do
      let y ← charsToNat? ys
      let mo ← charsToNat? mos
      let d ← charsToNat? ds
      let h ← charsToNat? hs
      let mi ← charsToNat? mis
      let s ← charsToNat? ss
      pure (.datetime y mo d h mi s)
    | _, _ => Option.none
  | _ => Option.none

/-- Evaluate an `Option`-valued function over a list, propagating the
first failure (the effect of a Python comprehension whose body may
raise). -/
def mapMOpt (f : A → Option B) : List A → Option (List B)
  | [] => some []
  | x :: xs => do
    let y ← f x
    let ys ← mapMOpt f xs
    pure (y :: ys)

/-- One item of a wire-side queries list: a dict with `name` and
`expression` entries, read by `Queries.to_python` as `q['name']` and
`q['expression']` (anything else raises, embedded as `Option.none`). -/
def queryItem : PyValue → Option (String × PyValue)
  | .dict kvs =>
    match dictGet kvs "name", dictGet kvs "expression" with
    | some (.str n), some e => some (n, e)
    | _, _ => Option.none
  | _ => Option.none

/-- `fields.py` `to_python(value, session)`: convert an API value to a
Python value.  `Option.none` embeds an exception.  Session interaction:
`Link.to_python` fetches the linked resource via the owning session
(`getattr(session, self.resource_key)(uri)`); since resources compare
by URI, the fetched proxy is embedded as `PyValue.resource uri`.
`Blob.to_python` starts a streaming GET of the data URI and returns the
chunk iterator, embedded as `PyValue.stream uri`. -/
def to_python : FieldKind → PyValue → Option PyValue
  | _, .none => some .none
  | .boolean, v => some v
  | .integer, v => some v
  | .string, v => some v
  | .task, v => some v
  | .link _, .dict kvs =>
    match dictGet kvs "uri" with
    | some (.str uri) => some (.resource uri)
    | _ => Option.none
  | .link _, .str uri => some (.resource uri)
  | .link _, _ => Option.none
  | .dateTime, .str s => parseTimestamp s
  | .dateTime, _ => Option.none
  | .blob, .dict kvs =>
    match dictGet kvs "uri" with
    | some (.str uri) => some (.stream uri)
    | _ => Option.none
  | .blob, _ => Option.none
  | .set σ, .list xs => (mapMOpt (to_python σ) xs).map .frozenset
  | .set σ, .frozenset xs => (mapMOpt (to_python σ) xs).map .frozenset
  | .set _, _ => Option.none
  | .queries, .list xs =>
    (mapMOpt queryItem xs).map
      fun pairs => .dict (pairs.foldl (fun d p => dictSet d p.1 p.2) [])
  | .queries, _ => Option.none

/-- `fields.py` `from_python(value)`: convert a Python value to an API
value.  `Link.from_python` takes the resource's URI; `Blob.from_python`
raises `NotImplementedError` (embedded as `Option.none`). -/
def from_python : FieldKind → PyValue → Option PyValue
  | _, .none => some .none
  | .boolean, v => some v
  | .integer, v => some v
  | .string, v => some v
  | .task, v => some v
  | .link _, .resource uri => some (.str uri)
  | .link _, _ => Option.none
  | .dateTime, .datetime y mo d h mi s => some (.str (isoformat y mo d h mi s))
  | .dateTime, _ => Option.none
  | .blob, _ => Option.none
  | .set σ, .list xs => (mapMOpt (from_python σ) xs).map .list
  | .set σ, .frozenset xs => (mapMOpt (from_python σ) xs).map .list
  | .set _, _ => Option.none
  | .queries, .dict kvs =>
    some (.list (kvs.map fun p => .dict [("name", .str p.1), ("expression", p.2)]))
  | .queries, _ => Option.none

/-- A field as declared on a resource class in `resources.py`: the
Python attribute name, the API key (`Field.key`, defaulting to the
name; no declaration in `resources.py` overrides it), the descriptor
kind, and the `mutable`/`hidden` flags.  Every declaration uses the
default `default=None`, so the stored default API value is uniformly
`PyValue.none`. -/
structure FieldDesc where
  name : String
  key : String
  kind : FieldKind
  isMutable : Bool
  hidden : Bool
deriving DecidableEq

/-- The resource classes defined in `resources.py`. -/
inductive RKind where
  | annot
  | coverage
  | dataSource
  | group
  | sample
  | user
  | variant
  | variation
deriving DecidableEq

/-- The field declarations of each resource class, inherited `uri`
(immutable `String` on the `Resource` base class) and, for the
`TaskedResource` subclasses, `task` included. -/
def resourceFields : RKind → List FieldDesc
  | .annot =>
    [⟨"uri", "uri", .string, false, false⟩,
     ⟨"task", "task", .task, false, false⟩,
     ⟨"original_data_source", "original_data_source", .link "data_source", false, false⟩,
     ⟨"annotated_data_source", "annotated_data_source", .link "data_source", false, false⟩,
     ⟨"data_source", "data_source", .link "data_source", false, true⟩,
     ⟨"name", "name", .string, false, true⟩,
     ⟨"queries", "queries", .queries, false, true⟩]
  | .coverage =>
    [⟨"uri", "uri", .string, false, false⟩,
     ⟨"task", "task", .task, false, false⟩,
     ⟨"sample", "sample", .link "sample", false, false⟩,
     ⟨"data_source", "data_source", .link "data_source", false, false⟩]
  | .dataSource =>
    [⟨"uri", "uri", .string, false, false⟩,
     ⟨"name", "name", .string, true, false⟩,
     ⟨"user", "user", .link "user", false, false⟩,
     ⟨"data", "data", .blob, false, false⟩,
     ⟨"filetype", "filetype", .string, false, false⟩,
     ⟨"gzipped", "gzipped", .boolean, false, false⟩,
     ⟨"added", "added", .dateTime, false, false⟩]
  | .group =>
    [⟨"uri", "uri", .string, false, false⟩,
     ⟨"name", "name", .string, true, false⟩]
  | .sample =>
    [⟨"uri", "uri", .string, false, false⟩,
     ⟨"user", "user", .link "user", false, false⟩,
     ⟨"name", "name", .string, true, false⟩,
     ⟨"pool_size", "pool_size", .integer, true, false⟩,
     ⟨"coverage_profile", "coverage_profile", .boolean, true, false⟩,
     ⟨"public", "public", .boolean, true, false⟩,
     ⟨"notes", "notes", .string, true, false⟩,
     ⟨"groups", "groups", .set (.link "group"), true, false⟩,
     ⟨"active", "active", .boolean, true, false⟩,
     ⟨"added", "added", .dateTime, false, false⟩]
  | .user =>
    [⟨"uri", "uri", .string, false, false⟩,
     ⟨"login", "login", .string, false, false⟩,
     ⟨"password", "password", .string, true, false⟩,
     ⟨"name", "name", .string, true, false⟩,
     ⟨"email", "email", .string, true, false⟩,
     ⟨"roles", "roles", .set .string, true, false⟩,
     ⟨"added", "added", .dateTime, false, false⟩]
  | .variant =>
    [⟨"uri", "uri", .string, false, false⟩,
     ⟨"chromosome", "chromosome", .string, false, false⟩,
     ⟨"position", "position", .integer, false, false⟩,
     ⟨"reference", "reference", .string, false, false⟩,
     ⟨"observed", "observed", .string, false, false⟩]
  | .variation =>
    [⟨"uri", "uri", .string, false, false⟩,
     ⟨"task", "task", .task, false, false⟩,
     ⟨"sample", "sample", .link "sample", false, false⟩,
     ⟨"data_source", "data_source", .link "data_source", false, false⟩]

/-- The state of one `Resource` instance: `_values`, the mapping from
field name to stored API value, and `_dirty`, the set of names of dirty
fields (embedded as a duplicate-free list). -/
structure RState where
  values : List (String × PyValue)
  dirty : List String

/-- Python `set.add` on `_dirty`. -/
def dirtyAdd (d : List String) (n : String) : List String :=
  if n ∈ d then d else n :: d

/-- `ResourceMeta._getter`: `field.to_python(self._values.get(field.name),
self.session)`. -/
def getField (f : FieldDesc) (s : RState) : Option PyValue :=
  to_python f.kind (dictGetD s.values f.name)

/-- Attribute assignment `resource.<name> = value`.  The metaclass
installs a setter (`ResourceMeta._setter`) only for mutable non-hidden
fields; assigning to any other field raises `AttributeError` (embedded
as `Option.none`).  The setter adds the name to `_dirty` and stores
`field.from_python(value)`. -/
def setField (f : FieldDesc) (s : RState) (v : PyValue) : Option RState :=
  if f.isMutable ∧ ¬f.hidden then
    (from_python f.kind v).map fun w =>
      ⟨dictSet s.values f.name w, dirtyAdd s.dirty f.name⟩
  else Option.none

/-- The `Resource.dirty` property: `bool(self._dirty)`. -/
def resourceDirty (s : RState) : Bool :=
  !s.dirty.isEmpty

/-- `Resource._load_values`: populate `_values` from a parsed response
object (`values[field.key] if field.key in values else field.default`,
and every default here is `None`), then clear `_dirty`. -/
def load_values (fields : List FieldDesc) (values : List (String × PyValue)) : RState :=
  ⟨fields.map fun f => (f.name, dictGetD values f.key), []⟩

/-- `Resource.refresh`: GET the resource's own URI and `_load_values`
the response's representation object.  `serverValues` is the
representation the server currently holds for this resource. -/
def refresh (fields : List FieldDesc) (serverValues : List (String × PyValue))
    (_s : RState) : RState :=
  load_values fields serverValues

/-- An HTTP request issued by the client, with the JSON body it carries
(the body entries are the Python objects handed to the transport; JSON
serialization is outside the resource layer). -/
structure Request where
  method : String
  uri : PyValue
  body : List (String × PyValue)

/-- The PATCH body built by `Resource.save`:
`{field.key: getattr(self, field.name) for field in self._fields if
field.name in self._dirty}`.  `getattr` goes through the generated
property, i.e. the field's `to_python` of the stored API value; hidden
fields have no property (they can never be dirty, since they have no
setter either). -/
def dirtyBody : List FieldDesc → RState → Option (List (String × PyValue))
  | [], _ => some []
  | f :: fs, s =>
    if f.name ∈ s.dirty then do
      let v ← if f.hidden then Option.none else getField f s
      let rest ← dirtyBody fs s
      pure ((f.key, v) :: rest)
    else dirtyBody fs s

/-- `Resource.save`: if `self.dirty`, PATCH the dirty fields to
`self.uri` and clear `_dirty`; otherwise do nothing.  Returns the new
state and the list of requests issued. -/
def save (fields : List FieldDesc) (s : RState) : Option (RState × List Request) :=
  if resourceDirty s then do
    let uri ← getField ⟨"uri", "uri", .string, false, false⟩ s
    let body ← dirtyBody fields s
    pure (⟨s.values, []⟩, [⟨"PATCH", uri, body⟩])
  else
    some (s, [])

/-- The POST body built by `Resource.create`:
`{field.key: field.from_python(values[field.name]) for field in
cls._fields if field.name in values}`.  Entries of `values` whose name
is not a declared field are not consulted at all. -/
def create_data : List FieldDesc → List (String × PyValue) → Option (List (String × PyValue))
  | [], _ => some []
  | f :: fs, values =>
    match dictGet values f.name with
    | Option.none => create_data fs values
    | some v => do
      let w ← from_python f.kind v
      let rest ← create_data fs values
      pure ((f.key, w) :: rest)

/-- The API error classes declared in `errors.py`.  `generic` is the
`ApiError` base class itself. -/
inductive ApiErrorKind where
  | generic
  | badRequest
  | forbidden
  | notAcceptable
  | notFound
  | unauthorized
  | unsatisfiableRange
deriving DecidableEq

/-- A Python exception escaping `Session.request`: a typed API error
carrying the `(code, message)` pair, or one of the raw builtin
exceptions that the error handler lets through. -/
inductive PyExc where
  | api (kind : ApiErrorKind) (code message : PyValue)
  | keyError
  | valueError
  | typeError

/-- `Session.__init__`'s `_api_errors` table: a `defaultdict` mapping
400/401/403/404 to their error classes and every other status to the
plain `ApiError`, so the lookup is total. -/
def api_errors (status : Nat) : ApiErrorKind :=
  if status = 400 then .badRequest
  else if status = 401 then .unauthorized
  else if status = 403 then .forbidden
  else if status = 404 then .notFound
  else .generic

/-- An HTTP response as `Session.request` sees it: status code, reason
phrase, raw body text, and the result of `response.json()` (`Option.none`
when the body does not parse as JSON, in which case `.json()` raises
`ValueError`). -/
structure HttpResponse where
  status : Nat
  reason : String
  text : String
  json : Option PyValue

/-- Python subscript `content[key]`: a `KeyError` on a dict without the
key, a `TypeError` on any non-dict. -/
def pyGetItem (content : PyValue) (key : String) : Except PyExc PyValue :=
  match content with
  | .dict kvs =>
    match dictGet kvs key with
    | some v => .ok v
    | Option.none => .error .keyError
  | _ => .error .typeError

/-- `Session._response_error`: read `(code, message)` out of a
structured `{error: {code, message}}` body; the `except KeyError,
ValueError:` clause is Python 2 syntax for `except KeyError as
ValueError:`, so only `KeyError` triggers the fallback to the HTTP
reason phrase and the first 78 characters of the body text, while a
`ValueError` from `response.json()` (unparseable body) and a
`TypeError` (non-dict JSON) propagate raw.  The status code is mapped
through the `_api_errors` table. -/
def response_error (r : HttpResponse) : PyExc :=
  match r.json with
  | Option.none => .valueError
  | some content =>
    match (do
      let e ← pyGetItem content "error"
      let code ← pyGetItem e "code"
      let message ← pyGetItem e "message"
      pure (code, message) : Except PyExc (PyValue × PyValue)) with
    | .ok (code, message) => .api (api_errors r.status) code message
    | .error .keyError =>
      .api (api_errors r.status) (.str r.reason) (.str (r.text.take 78))
    | .error e => e

/-- The response handling of `Session.request`: a status code in
`(200, 201, 202)` returns the response unmodified, any other status
raises the exception built by `_response_error`. -/
def handle_response (r : HttpResponse) : Except PyExc HttpResponse :=
  if r.status = 200 ∨ r.status = 201 ∨ r.status = 202 then .ok r
  else .error (response_error r)

/-- The session state relevant to endpoint resolution: `_cached_uris`,
initialized to `None` and set to the resolved endpoint dictionary on a
successful resolution. -/
structure SessionState where
  cachedUris : Option (List (String × PyValue))

/-- `Session.__init__`: stores configuration, sets the log level, and
initializes `_cached_uris = None` and the `_api_errors` table.  It
issues no HTTP request. -/
def sessionInit : SessionState :=
  ⟨Option.none⟩

/-- The URIs requested while `Session.__init__` runs (none). -/
def sessionInitCalls : List String :=
  []

/-- The endpoint keys read from the server's root document by
`Session.uris`. -/
def uriKeys : List String :=
  ["authentication", "users", "samples", "variations", "coverages",
   "data_sources", "annotations", "variants"]

/-- The dictionary comprehension in `Session.uris`:
`{key: response[key + '_uri'] for key in (...)}`; a missing key is a
`KeyError`. -/
def resolveUris (doc : List (String × PyValue)) : Option (List (String × PyValue)) :=
  mapMOpt (fun k => (dictGet doc (k ++ "_uri")).map fun v => (k, v)) uriKeys

/-- One access of the `Session.uris` property.  `root` is the outcome
of `self.get(self.config.api_root).json()` (an API error from `get` or
a `ValueError` from `.json()` both surface as `.error`).  Returns the
property's result (or the escaping exception), the session state after
the access, and the list of URIs requested during the access.  The
guard is `if not self._cached_uris:`, so both `None` and an empty
cached dictionary trigger resolution; the cache is only written on a
fully successful resolution. -/
def urisGet (apiRoot : String) (root : Except PyExc (List (String × PyValue)))
    (s : SessionState) :
    Except PyExc (List (String × PyValue)) × SessionState × List String :=
  match s.cachedUris with
  | some m =>
    if m.isEmpty then urisFetch apiRoot root s else (.ok m, s, [])
  | Option.none => urisFetch apiRoot root s
where
  /-- The resolution branch of `Session.uris`: one GET of the API root,
  then the endpoint dictionary comprehension. -/
  urisFetch (apiRoot : String) (root : Except PyExc (List (String × PyValue)))
      (s : SessionState) :
      Except PyExc (List (String × PyValue)) × SessionState × List String :=
    match root with
    | .error e => (.error e, s, [apiRoot])
    | .ok doc =>
      match resolveUris doc with
      | Option.none => (.error .keyError, s, [apiRoot])
      | some m => (.ok m, ⟨some m⟩, [apiRoot])

/-- The state of a `ResourceCollection`: `_next` (offset of the next
unfetched item, `None` once exhausted), `_resources` (the deque of
fetched but not yet yielded resources), and `size` (the server's last
reported total).  The collection's fixed filter values (`_values`) are
set at construction, sent with every page request and never modified;
they are folded into the server model below, which stands for the
already-filtered listing. -/
structure CollState where
  next : Option Nat
  buffer : List RState
  size : Nat

/-- The server side of one range request, modelled from the range
protocol the spec prescribes (the server itself is an external
collaborator): the client asks for items `[a, a + c)` of the listing
`srv` (each item a wire representation object); a window starting at or
beyond the total count is answered with 416 Requested Range Not
Satisfiable (`.error ()`), otherwise the response carries the items
slice and a `Content-Range: items a-(stop-1)/total` header, parsed by
werkzeug into the exclusive-stop triple `(a, stop, total)`. -/
def serverRange (srv : List (List (String × PyValue))) (a c : Nat) :
    Except Unit (List (List (String × PyValue)) × Nat × Nat) :=
  if srv.length ≤ a then .error ()
  else .ok ((srv.drop a).take c, min (a + c) srv.length, srv.length)

/-- `ResourceCollection._get_resources`: no-op when `_next is None`;
otherwise request the window `[_next, _next + cache_size)`.  On
`UnsatisfiableRangeError` set `size = 0` and `_next = None` and return.
On success extend the buffer with `resource_class(session, resource)`
for each response item (i.e. `_load_values` of each wire object), set
`size` to the `Content-Range` total, and either advance `_next` by
`cache_size` (if `stop < total`) or set it to `None`. -/
def get_resources (fields : List FieldDesc) (c : Nat)
    (srv : List (List (String × PyValue))) (s : CollState) : CollState :=
  match s.next with
  | Option.none => s
  | some a =>
    match serverRange srv a c with
    | .error () => ⟨Option.none, s.buffer, 0⟩
    | .ok (items, stop, total) =>
      ⟨if stop < total then some (a + c) else Option.none,
       s.buffer ++ items.map (load_values fields),
       total⟩

/-- `ResourceCollection.reset`: `_next = 0`, clear the buffer, then an
eager `_get_resources()`. -/
def resetColl (fields : List FieldDesc) (c : Nat)
    (srv : List (List (String × PyValue))) (s : CollState) : CollState :=
  get_resources fields c srv ⟨some 0, [], s.size⟩

/-- `ResourceCollection.__init__`: `size = 0`, an empty buffer, then
`reset()` (so the first page is fetched eagerly at construction). -/
def mkColl (fields : List FieldDesc) (c : Nat)
    (srv : List (List (String × PyValue))) : CollState :=
  resetColl fields c srv ⟨some 0, [], 0⟩

/-- `ResourceCollection.next`: fetch more only if the buffer is empty,
then pop the oldest buffered resource; an empty buffer after the fetch
is `StopIteration` (`Option.none`). -/
def stepColl (fields : List FieldDesc) (c : Nat)
    (srv : List (List (String × PyValue))) (s : CollState) :
    Option (RState × CollState) :=
  let s2 := if s.buffer.isEmpty then get_resources fields c srv s else s
  match s2.buffer with
  | [] => Option.none
  | r :: rest => some (r, ⟨s2.next, rest, s2.size⟩)

/-- Repeatedly call `next()` on the collection, collecting the yielded
resources until `StopIteration`; `fuel` bounds the number of calls. -/
def drainColl (fields : List FieldDesc) (c : Nat)
    (srv : List (List (String × PyValue))) : Nat → CollState → List RState
  | 0, _ => []
  | fuel + 1, s =>
    match stepColl fields c srv s with
    | Option.none => []
    | some (r, s2) => r :: drainColl fields c srv fuel s2

/-- Valid new values for a field, in the field's local (Python)
representation — the type the generated getter returns: `None` for any
field, a `bool`/`int`/`str` for the scalar fields, a resource proxy for
a `Link`, and a `frozenset` of valid member values for a `Set`.  (This
is the spec-side reading of "valid value"; it is only consulted for the
kinds that occur on mutable fields in `resources.py`.) -/
def validLocal : FieldKind → PyValue → Bool
  | _, .none => true
  | .boolean, .bool _ => true
  | .integer, .int _ => true
  | .string, .str _ => true
  | .link _, .resource _ => true
  | .set σ, .frozenset xs => xs.all (validLocal σ)
  | _, _ => false

/-- A Python in-place mutation attempt `x.add(y)`.  Only the built-in
mutable `set` type has an `add` method; a `frozenset` (which
`Set.to_python` returns precisely to force modifications through the
field setter, per its docstring) and every other value the embedding
produces raise `AttributeError`, embedded as `Option.none`. -/
def pyInPlaceAdd (x _y : PyValue) : Option PyValue :=
  match x with
  | .frozenset _ => Option.none
  | _ => Option.none

/-- `resource.<name>.add(y)` for a field `f`: evaluate the getter, then
attempt the in-place `add` on its result.  The getter builds a fresh
value from the stored API value, so even a successful in-place
mutation could only touch that copy: `_values` and `_dirty` are left
exactly as they were, which the result records by returning the
unchanged state. -/
def inPlaceAddAttempt (f : FieldDesc) (s : RState) (y : PyValue) : Option RState :=
  match getField f s with
  | Option.none => Option.none
  | some r => (pyInPlaceAdd r y).map fun _ => s

/-- Fixture: the wire representation of a user, as in the test suite. -/
def userWire : List (String × PyValue) :=
  [("uri", .str "/users/4"), ("login", .str "test"), ("name", .str "test"),
   ("roles", .list [.str "importer"]), ("added", .str "2012-11-23T10:55:12")]

/-- Fixture: the user resource state freshly loaded from `userWire`. -/
def userLoaded : RState :=
  load_values (resourceFields .user) userWire

/-- Fixture: `userLoaded` after
`user.roles = frozenset({'importer', 'annotator'})`: the stored API
value is the wire list and `roles` is dirty. -/
def userRolesSet : RState :=
  ⟨[("uri", .str "/users/4"), ("login", .str "test"), ("password", .none),
    ("name", .str "test"), ("email", .none),
    ("roles", .list [.str "importer", .str "annotator"]),
    ("added", .str "2012-11-23T10:55:12")], ["roles"]⟩

/-- Fixture: the wire representation of a sample before the server-side
edit (the scenario of `test_refresh_modified_sample_skip_dirty`). -/
def sampleWire : List (String × PyValue) :=
  [("uri", .str "/samples/3"), ("name", .str "Sample"), ("pool_size", .int 1)]

/-- Fixture: the sample loaded from `sampleWire` after
`sample.pool_size = 42` (so `pool_size` is dirty). -/
def samplePool42 : RState :=
  ⟨[("uri", .str "/samples/3"), ("user", .none), ("name", .str "Sample"),
    ("pool_size", .int 42), ("coverage_profile", .none), ("public", .none),
    ("notes", .none), ("groups", .none), ("active", .none), ("added", .none)],
   ["pool_size"]⟩

/-- Fixture: the sample's wire representation after the server-side
rename to `Modified Sample` (while the client holds `samplePool42`). -/
def sampleWireModified : List (String × PyValue) :=
  [("uri", .str "/samples/3"), ("name", .str "Modified Sample"), ("pool_size", .int 1)]

/-- Fixture: a 206 Partial Content response, as the server sends for
every ranged collection page. -/
def resp206 : HttpResponse :=
  ⟨206, "Partial Content", "first page of the sample collection",
   some (.dict [("sample_collection", .dict [("items", .list [])])])⟩

/-- Fixture: a 416 response with the structured error body the server
sends when the requested window is beyond the total count. -/
def resp416 : HttpResponse :=
  ⟨416, "Requested Range Not Satisfiable", "range error body",
   some (.dict [("error",
     .dict [("code", .str "unsatisfiable_range"),
            ("message", .str "Requested range not satisfiable")])])⟩

/-- Fixture: a 404 response with a structured error body. -/
def resp404 : HttpResponse :=
  ⟨404, "Not Found", "not found body",
   some (.dict [("error",
     .dict [("code", .str "not_found"), ("message", .str "x")])])⟩

/-- Fixture: a 500 response whose body is not JSON, so
`response.json()` raises `ValueError`. -/
def resp500 : HttpResponse :=
  ⟨500, "Internal Server Error", "an HTML error page", Option.none⟩

/-- Fixture: a root-document fetch that fails with a transport-level
API error. -/
def failingRoot : Except PyExc (List (String × PyValue)) :=
  .error (.api .generic (.str "Internal Server Error") (.str "boom"))

theorem dictGet_dictSet_self (d : List (String × PyValue)) (k : String) (v : PyValue) :
    dictGet (dictSet d k v) k = some v := by
  induction d with
  | nil => simp [dictSet, dictGet]
  | cons p rest ih =>
    obtain ⟨k2, w⟩ := p
    by_cases h : k2 = k
    · simp [dictSet, h, dictGet]
    · simp [dictSet, h, dictGet, ih]

theorem mem_dirtyAdd (d : List String) (n : String) : n ∈ dirtyAdd d n := by
  unfold dirtyAdd
  by_cases h : n ∈ d <;> simp [h]

/-- Member-wise round-trip for lists, as used by `Set` fields:
`from_python` each member into the wire list, `to_python` each back. -/
theorem mapM_roundtrip (σ : FieldKind) (xs : List PyValue)
    (h : ∀ x ∈ xs, ∃ w, from_python σ x = some w ∧ to_python σ w = some x) :
    ∃ ws, mapMOpt (from_python σ) xs = some ws ∧ mapMOpt (to_python σ) ws = some xs := by
  induction xs with
  | nil => exact ⟨[], rfl, rfl⟩
  | cons x rest ih =>
    obtain ⟨w, hw, hback⟩ := h x (List.mem_cons_self x rest)
    obtain ⟨ws, hws, hwsback⟩ := ih fun y hy => h y (List.mem_cons_of_mem x hy)
    refine ⟨w :: ws, ?_, ?_⟩
    · simp [mapMOpt, hw, hws]
    · simp [mapMOpt, hback, hwsback]

/-- Round-trip: a valid local value survives `from_python` followed by
`to_python` unchanged. -/
theorem valid_roundtrip (k : FieldKind) (v : PyValue) (h : validLocal k v = true) :
    ∃ w, from_python k v = some w ∧ to_python k w = some v := by
  induction k generalizing v with
  | boolean => cases v <;> simp_all [validLocal, from_python, to_python]
  | integer => cases v <;> simp_all [validLocal, from_python, to_python]
  | string => cases v <;> simp_all [validLocal, from_python, to_python]
  | link rk => cases v <;> simp_all [validLocal, from_python, to_python]
  | dateTime => cases v <;> simp_all [validLocal, from_python, to_python]
  | blob => cases v <;> simp_all [validLocal, from_python, to_python]
  | task => cases v <;> simp_all [validLocal, from_python, to_python]
  | queries => cases v <;> simp_all [validLocal, from_python, to_python]
  | set σ ih =>
    cases v with
    | none => exact ⟨.none, rfl, rfl⟩
    | frozenset xs =>
      have hmem : ∀ x ∈ xs, ∃ w, from_python σ x = some w ∧ to_python σ w = some x := by
        intro x hx
        apply ih
        simp only [validLocal, List.all_eq_true] at h
        exact h x hx
      obtain ⟨ws, hws, hback⟩ := mapM_roundtrip σ xs hmem
      exact ⟨.list ws, by simp [from_python, hws], by simp [to_python, hback]⟩
    | bool b => simp [validLocal] at h
    | int n => simp [validLocal] at h
    | str s => simp [validLocal] at h
    | list xs => simp [validLocal] at h
    | dict kvs => simp [validLocal] at h
    | datetime y mo d h2 mi s => simp [validLocal] at h
    | resource u => simp [validLocal] at h
    | stream u => simp [validLocal] at h

/-- In every resource class of `resources.py`, the mutable fields are
all non-hidden (so each has both a getter and a setter property). -/
theorem mutable_not_hidden (rk : RKind) :
    ∀ f ∈ resourceFields rk, f.isMutable = true → f.hidden = false := by
  cases rk <;> decide

theorem dirtyAdd_ne_nil (d : List String) (n : String) : dirtyAdd d n ≠ [] :=
  List.ne_nil_of_mem (mem_dirtyAdd d n)

/-- Claim C3: for every Resource kind, every mutable field `f`, and
every valid new local value `v`, assigning `R.f = v` succeeds, marks
`f` dirty (so `R.dirty` is `True`), and a subsequent read of `R.f`
returns `v` — whatever the prior state was, in particular when `v`
equals the field's prior value. -/
theorem mutable_field_set_get (rk : RKind) (f : FieldDesc) (s : RState) (v : PyValue)
    (hf : f ∈ resourceFields rk) (hm : f.isMutable = true)
    (hv : validLocal f.kind v = true) :
    ∃ s2, setField f s v = some s2 ∧ getField f s2 = some v ∧
      f.name ∈ s2.dirty ∧ resourceDirty s2 = true := by
  have hh : f.hidden = false := mutable_not_hidden rk f hf hm
  obtain ⟨w, hw, hback⟩ := valid_roundtrip f.kind v hv
  refine ⟨⟨dictSet s.values f.name w, dirtyAdd s.dirty f.name⟩, ?_, ?_, ?_, ?_⟩
  · simp [setField, hm, hh, hw]
  · simp [getField, dictGetD, dictGet_dictSet_self, hback]
  · exact mem_dirtyAdd _ _
  · simpa [resourceDirty, List.isEmpty_iff] using dirtyAdd_ne_nil s.dirty f.name

/-- Witness for C3: the `roles` field of a user, assigned the frozenset
`{'importer'}` over a freshly loaded state. -/
theorem mutable_field_set_get_witness :
    (⟨"roles", "roles", .set .string, true, false⟩ : FieldDesc) ∈ resourceFields .user ∧
    (⟨"roles", "roles", .set .string, true, false⟩ : FieldDesc).isMutable = true ∧
    validLocal (.set .string) (.frozenset [.str "importer"]) = true ∧
    (∃ s2,
      setField ⟨"roles", "roles", .set .string, true, false⟩
        (load_values (resourceFields .user) [("uri", .str "/users/4")])
        (.frozenset [.str "importer"]) = some s2 ∧
      getField ⟨"roles", "roles", .set .string, true, false⟩ s2 =
        some (.frozenset [.str "importer"]) ∧
      "roles" ∈ s2.dirty ∧ resourceDirty s2 = true) :=
  ⟨by decide, rfl, rfl,
   mutable_field_set_get .user ⟨"roles", "roles", .set .string, true, false⟩
     (load_values (resourceFields .user) [("uri", .str "/users/4")])
     (.frozenset [.str "importer"]) (by decide) rfl rfl⟩

theorem dictSet_fresh (d : List (String × PyValue)) (k : String) (v : PyValue)
    (h : k ∉ d.map Prod.fst) : dictSet d k v = d ++ [(k, v)] := by
  induction d with
  | nil => rfl
  | cons p rest ih =>
    obtain ⟨k2, w⟩ := p
    simp only [List.map_cons, List.mem_cons, not_or] at h
    have hne : ¬k2 = k := fun he => h.1 he.symm
    simp [dictSet, hne, ih h.2]

/-- Rebuilding a dictionary from key-value pairs with pairwise distinct
keys (all fresh for the accumulator) just appends them in order. -/
theorem foldl_dictSet_fresh (kvs : List (String × PyValue)) :
    ∀ acc, (∀ k ∈ kvs.map Prod.fst, k ∉ acc.map Prod.fst) →
      (kvs.map Prod.fst).Nodup →
      kvs.foldl (fun d p => dictSet d p.1 p.2) acc = acc ++ kvs := by
  induction kvs with
  | nil => simp
  | cons p rest ih =>
    obtain ⟨k, v⟩ := p
    intro acc hdisj hnd
    simp only [List.map_cons, List.nodup_cons] at hnd
    simp only [List.foldl_cons]
    rw [dictSet_fresh acc k v (hdisj k (by simp))]
    rw [ih (acc ++ [(k, v)]) ?_ hnd.2]
    · simp
    · intro k2 hk2
      simp only [List.map_append, List.mem_append, List.map_cons, List.map_nil,
        List.mem_singleton, not_or]
      refine ⟨hdisj k2 (by simp [hk2]), ?_⟩
      intro he
      exact hnd.1 (he ▸ hk2)

/-- `Queries.to_python` reads back exactly the items that
`Queries.from_python` wrote. -/
theorem mapMOpt_queryItem (kvs : List (String × PyValue)) :
    mapMOpt queryItem
      (kvs.map fun p => .dict [("name", .str p.1), ("expression", p.2)]) = some kvs := by
  induction kvs with
  | nil => rfl
  | cons p rest ih =>
    obtain ⟨k, v⟩ := p
    simp [mapMOpt, queryItem, dictGet, ih]

theorem queries_roundtrip (kvs : List (String × PyValue))
    (hnd : (kvs.map Prod.fst).Nodup) :
    (from_python .queries (.dict kvs)).bind (to_python .queries) = some (.dict kvs) := by
  show to_python .queries
    (.list (kvs.map fun p => .dict [("name", .str p.1), ("expression", p.2)])) =
    some (.dict kvs)
  simp only [to_python, mapMOpt_queryItem, Option.map_some']
  rw [foldl_dictSet_fresh kvs [] (by simp) hnd]
  simp

/-- Claim C5: `to_local(to_wire(x)) == x` for the Scalar
(Boolean/Integer/String) descriptors on every value, for Set
descriptors on every valid local frozenset, for the Queries descriptor
on every mapping, and for DateTime at the representative timestamp:
the wire string `"2012-11-23T10:55:12"` converts to the structured
date-time `(2012, 11, 23, 10, 55, 12)` and back. -/
theorem field_roundtrip :
    (∀ x, (from_python .boolean x).bind (to_python .boolean) = some x) ∧
    (∀ x, (from_python .integer x).bind (to_python .integer) = some x) ∧
    (∀ x, (from_python .string x).bind (to_python .string) = some x) ∧
    (∀ (σ : FieldKind) (v : PyValue), validLocal (.set σ) v = true →
      (from_python (.set σ) v).bind (to_python (.set σ)) = some v) ∧
    (∀ kvs : List (String × PyValue), (kvs.map Prod.fst).Nodup →
      (from_python .queries (.dict kvs)).bind (to_python .queries) = some (.dict kvs)) ∧
    from_python .dateTime (.datetime 2012 11 23 10 55 12) =
      some (.str "2012-11-23T10:55:12") ∧
    to_python .dateTime (.str "2012-11-23T10:55:12") =
      some (.datetime 2012 11 23 10 55 12) := by
  refine ⟨?_, ?_, ?_, ?_, queries_roundtrip, ?_, ?_⟩
  · intro x; cases x <;> rfl
  · intro x; cases x <;> rfl
  · intro x; cases x <;> rfl
  · intro σ v h
    obtain ⟨w, hw, hb⟩ := valid_roundtrip (.set σ) v h
    simp [hw, hb]
  · rfl
  · rfl

/-- Witness for C5: the round-trips evaluated on representative
concrete values (a string, a two-element role set, a two-query
mapping). -/
theorem field_roundtrip_witness :
    (from_python .string (.str "test")).bind (to_python .string) = some (.str "test") ∧
    (from_python (.set .string) (.frozenset [.str "importer", .str "annotator"])).bind
      (to_python (.set .string)) =
      some (.frozenset [.str "importer", .str "annotator"]) ∧
    (from_python .queries (.dict [("Q1", .str "sample:1"), ("Q2", .str "sample:2")])).bind
      (to_python .queries) =
      some (.dict [("Q1", .str "sample:1"), ("Q2", .str "sample:2")]) :=
  ⟨field_roundtrip.2.2.1 (.str "test"),
   field_roundtrip.2.2.2.1 .string (.frozenset [.str "importer", .str "annotator"]) rfl,
   field_roundtrip.2.2.2.2.1 [("Q1", .str "sample:1"), ("Q2", .str "sample:2")] (by decide)⟩

/-- `Set.to_python` only ever produces `None` or a frozenset. -/
theorem to_python_set_shape (σ : FieldKind) (w v : PyValue)
    (h : to_python (.set σ) w = some v) : v = .none ∨ ∃ ys, v = .frozenset ys := by
  cases w with
  | none =>
    simp only [to_python, Option.some.injEq] at h
    exact Or.inl h.symm
  | list xs =>
    simp only [to_python] at h
    cases hm : mapMOpt (to_python σ) xs with
    | none => rw [hm] at h; simp at h
    | some ys =>
      rw [hm] at h
      simp only [Option.map_some', Option.some.injEq] at h
      exact Or.inr ⟨ys, h.symm⟩
  | frozenset xs =>
    simp only [to_python] at h
    cases hm : mapMOpt (to_python σ) xs with
    | none => rw [hm] at h; simp at h
    | some ys =>
      rw [hm] at h
      simp only [Option.map_some', Option.some.injEq] at h
      exact Or.inr ⟨ys, h.symm⟩
  | bool b => simp [to_python] at h
  | int n => simp [to_python] at h
  | str s => simp [to_python] at h
  | dict kvs => simp [to_python] at h
  | datetime y mo d h2 mi s => simp [to_python] at h
  | resource u => simp [to_python] at h
  | stream u => simp [to_python] at h

/-- Claim C8: for every Set-kind field, the getter only returns
immutable values (`None` or a frozenset), an in-place
`resource.field.add(y)` raises `AttributeError` without touching
`_values` or `_dirty`, and whole-field reassignment through the setter
does mark the field dirty. -/
theorem set_field_mutation_discipline (σ : FieldKind) (f : FieldDesc) (s : RState)
    (y : PyValue) (hk : f.kind = .set σ) :
    (∀ v, getField f s = some v → v = .none ∨ ∃ ys, v = .frozenset ys) ∧
    inPlaceAddAttempt f s y = Option.none ∧
    (∀ v s2, setField f s v = some s2 → f.name ∈ s2.dirty ∧ resourceDirty s2 = true) := by
  refine ⟨?_, ?_, ?_⟩
  · intro v hv
    rw [getField, hk] at hv
    exact to_python_set_shape σ _ v hv
  · rw [inPlaceAddAttempt]
    cases hget : getField f s with
    | none => rfl
    | some r => cases r <;> rfl
  · intro v s2 hset
    rw [setField] at hset
    by_cases hcond : f.isMutable = true ∧ ¬f.hidden = true
    · rw [if_pos hcond] at hset
      cases hw : from_python f.kind v with
      | none => rw [hw] at hset; simp at hset
      | some w =>
        rw [hw] at hset
        simp only [Option.map_some', Option.some.injEq] at hset
        subst hset
        exact ⟨mem_dirtyAdd _ _,
          by simpa [resourceDirty, List.isEmpty_iff] using dirtyAdd_ne_nil s.dirty f.name⟩
    · rw [if_neg hcond] at hset
      simp at hset

/-- Witness for C8: the `roles` set field of a loaded user; the direct
`user.roles.add('annotator')` fails while `user.roles = ...` marks the
field dirty. -/
theorem set_field_mutation_discipline_witness :
    (∀ v, getField ⟨"roles", "roles", .set .string, true, false⟩
        (load_values (resourceFields .user)
          [("uri", .str "/users/4"), ("roles", .list [.str "importer"])]) = some v →
      v = .none ∨ ∃ ys, v = .frozenset ys) ∧
    inPlaceAddAttempt ⟨"roles", "roles", .set .string, true, false⟩
      (load_values (resourceFields .user)
        [("uri", .str "/users/4"), ("roles", .list [.str "importer"])])
      (.str "annotator") = Option.none ∧
    (∀ v s2, setField ⟨"roles", "roles", .set .string, true, false⟩
        (load_values (resourceFields .user)
          [("uri", .str "/users/4"), ("roles", .list [.str "importer"])]) v = some s2 →
      "roles" ∈ s2.dirty ∧ resourceDirty s2 = true) :=
  set_field_mutation_discipline .string ⟨"roles", "roles", .set .string, true, false⟩
    (load_values (resourceFields .user)
      [("uri", .str "/users/4"), ("roles", .list [.str "importer"])])
    (.str "annotator") rfl

/-- Filtering a dict's entry list by a predicate that holds for every
entry with a given key does not change the lookup of that key. -/
theorem dictGet_filter (values : List (String × PyValue)) (P : String × PyValue → Bool)
    (k : String) (hp : ∀ v, P (k, v) = true) :
    dictGet (values.filter P) k = dictGet values k := by
  induction values with
  | nil => rfl
  | cons p rest ih =>
    obtain ⟨k2, w⟩ := p
    by_cases he : k2 = k
    · subst he
      rw [List.filter_cons, if_pos (hp w)]
      simp [dictGet]
    · rw [List.filter_cons]
      by_cases hkeep : P (k2, w) = true
      · rw [if_pos hkeep]
        simp [dictGet, he, ih]
      · rw [if_neg hkeep]
        simp [dictGet, he, ih]

/-- `create_data` only consults the entries of `values` named by a
declared field, so filtering `values` by any predicate that keeps all
declared names leaves the POST body unchanged. -/
theorem create_data_filter (fields : List FieldDesc) (values : List (String × PyValue))
    (P : String × PyValue → Bool) (hP : ∀ f ∈ fields, ∀ v, P (f.name, v) = true) :
    create_data fields (values.filter P) = create_data fields values := by
  induction fields with
  | nil => rfl
  | cons f fs ih =>
    have hf : ∀ v, P (f.name, v) = true := hP f (List.mem_cons_self f fs)
    have ihr := ih fun g hg => hP g (List.mem_cons_of_mem f hg)
    simp only [create_data, dictGet_filter values P f.name hf, ihr]

/-- Claim C10: for every resource kind, the POST body built by
`create` contains exactly the entries of `values` whose name is a
declared field, each wire-encoded with the field's `from_python` and
stored under the field's API key; entries with undeclared names are
silently ignored (dropping them from `values` leaves the body
unchanged). -/
theorem create_posts_declared_fields (fields : List FieldDesc)
    (values body : List (String × PyValue)) (h : create_data fields values = some body) :
    (∀ k w, (k, w) ∈ body ↔
      ∃ f, f ∈ fields ∧ f.key = k ∧
        ∃ v, dictGet values f.name = some v ∧ from_python f.kind v = some w) ∧
    create_data fields
      (values.filter fun kv => decide (kv.1 ∈ fields.map FieldDesc.name)) = some body := by
  constructor
  · induction fields generalizing body with
    | nil =>
      simp only [create_data, Option.some.injEq] at h
      subst h
      simp
    | cons f fs ih =>
      intro k w
      rw [create_data] at h
      cases hv : dictGet values f.name with
      | none =>
        rw [hv] at h
        rw [ih body h k w]
        constructor
        · rintro ⟨g, hg, rest⟩
          exact ⟨g, List.mem_cons_of_mem f hg, rest⟩
        · rintro ⟨g, hg, hkey, v, hgv, hgw⟩
          rcases List.mem_cons.mp hg with he | hgfs
          · subst he
            rw [hv] at hgv
            exact absurd hgv (by simp)
          · exact ⟨g, hgfs, hkey, v, hgv, hgw⟩
      | some v =>
        rw [hv] at h
        dsimp only at h
        cases hw : from_python f.kind v with
        | none => rw [hw] at h; simp at h
        | some w2 =>
          rw [hw] at h
          cases hrest : create_data fs values with
          | none => rw [hrest] at h; simp at h
          | some rest =>
            rw [hrest] at h
            simp only [Option.pure_def, Option.bind_eq_bind, Option.some_bind,
              Option.some.injEq] at h
            subst h
            constructor
            · intro hmem
              rcases List.mem_cons.mp hmem with he | hmem2
              · refine ⟨f, List.mem_cons_self f fs, ?_, v, hv, ?_⟩
                · exact (congrArg Prod.fst he).symm
                · have hw2 : w = w2 := congrArg Prod.snd he
                  rw [hw2]; exact hw
              · obtain ⟨g, hg, rest2⟩ := ((ih rest hrest) k w).mp hmem2
                exact ⟨g, List.mem_cons_of_mem f hg, rest2⟩
            · rintro ⟨g, hg, hkey, v2, hgv, hgw⟩
              rcases List.mem_cons.mp hg with he | hgfs
              · subst he
                rw [hv] at hgv
                have hv2 : v2 = v := by injection hgv with h2; exact h2.symm
                subst hv2
                rw [hw] at hgw
                have hw2 : w = w2 := by injection hgw with h2; exact h2.symm
                subst hkey
                subst hw2
                exact List.mem_cons_self _ _
              · exact List.mem_cons_of_mem _ (((ih rest hrest) k w).mpr ⟨g, hgfs, hkey, v2, hgv, hgw⟩)
  · rw [create_data_filter fields values _ ?_, h]
    intro f hf v
    exact decide_eq_true (List.mem_map_of_mem FieldDesc.name hf)

/-- Witness for C10: creating a group from values carrying the declared
`name` and an undeclared `bogus` entry. -/
theorem create_posts_declared_fields_witness :
    (∀ k w, (k, w) ∈ [("name", PyValue.str "test group")] ↔
      ∃ f, f ∈ resourceFields .group ∧ f.key = k ∧
        ∃ v, dictGet [("name", .str "test group"), ("bogus", .int 1)] f.name = some v ∧
          from_python f.kind v = some w) ∧
    create_data (resourceFields .group)
      (([("name", .str "test group"), ("bogus", .int 1)] :
          List (String × PyValue)).filter
        fun kv => decide (kv.1 ∈ (resourceFields .group).map FieldDesc.name)) =
      some [("name", PyValue.str "test group")] :=
  create_posts_declared_fields (resourceFields .group)
    [("name", .str "test group"), ("bogus", .int 1)]
    [("name", PyValue.str "test group")] rfl

/-- Claim C1 (divergence): `save()` is a no-op on a clean resource and,
on a dirty resource, issues exactly one PATCH to the resource's own URI
carrying exactly the dirty fields and then clears the dirty set — but
the body values are the getter results (`getattr(self, field.name)`,
i.e. `to_python` of the stored API value), not wire encodings: for the
dirty `roles` set field the body holds the local frozenset, while the
wire encoding (`from_python`, equal to the stored `_values` entry) is
the list. -/
theorem save_body_not_wire_encoded :
    save (resourceFields .user) userLoaded = some (userLoaded, []) ∧
    setField ⟨"roles", "roles", .set .string, true, false⟩ userLoaded
      (.frozenset [.str "importer", .str "annotator"]) = some userRolesSet ∧
    save (resourceFields .user) userRolesSet =
      some (⟨userRolesSet.values, []⟩,
        [⟨"PATCH", .str "/users/4",
          [("roles", .frozenset [.str "importer", .str "annotator"])]⟩]) ∧
    from_python (.set .string) (.frozenset [.str "importer", .str "annotator"]) =
      some (.list [.str "importer", .str "annotator"]) ∧
    dictGet userRolesSet.values "roles" =
      some (.list [.str "importer", .str "annotator"]) ∧
    PyValue.frozenset [.str "importer", .str "annotator"] ≠
      PyValue.list [.str "importer", .str "annotator"] :=
  ⟨rfl, rfl, rfl, rfl, rfl, fun h => PyValue.noConfusion h⟩

/-- Claim C7 (divergence): `refresh()` takes no `skip_dirty` argument;
it unconditionally overwrites every field from the server response and
clears the whole dirty set.  In the scenario of
`test_refresh_modified_sample_skip_dirty` (local dirty
`pool_size = 42`, server-side rename to `Modified Sample`), the
refreshed resource has `pool_size == 1` (the server value, not the
dirty local 42) and is no longer dirty. -/
theorem refresh_overwrites_dirty_fields :
    setField ⟨"pool_size", "pool_size", .integer, true, false⟩
      (load_values (resourceFields .sample) sampleWire) (.int 42) = some samplePool42 ∧
    refresh (resourceFields .sample) sampleWireModified samplePool42 =
      load_values (resourceFields .sample) sampleWireModified ∧
    getField ⟨"name", "name", .string, true, false⟩
      (refresh (resourceFields .sample) sampleWireModified samplePool42) =
      some (.str "Modified Sample") ∧
    getField ⟨"pool_size", "pool_size", .integer, true, false⟩
      (refresh (resourceFields .sample) sampleWireModified samplePool42) =
      some (.int 1) ∧
    (refresh (resourceFields .sample) sampleWireModified samplePool42).dirty = [] ∧
    resourceDirty (refresh (resourceFields .sample) sampleWireModified samplePool42) =
      false ∧
    getField ⟨"pool_size", "pool_size", .integer, true, false⟩
      (refresh (resourceFields .sample) sampleWireModified samplePool42) ≠
      some (.int 42) := by
  refine ⟨rfl, rfl, rfl, rfl, rfl, rfl, ?_⟩
  intro h
  have h2 : (some (PyValue.int 1) : Option PyValue) = some (.int 42) := h
  injection h2 with h3
  injection h3 with h4
  exact absurd h4 (by decide)

/-- Claim C2 (divergence): `Session.request` returns the response only
for statuses 200/201/202 — a 206 Partial Content (every ranged
collection page) is turned into an error; the `_api_errors` table has
no 406 or 416 entries, so both map to the plain `ApiError` instead of
`NotAcceptableError`/`UnsatisfiableRangeError`; and an unparseable
error body escapes as a raw `ValueError` (the Python 2 clause
`except KeyError, ValueError:` only catches `KeyError`) instead of the
reason-phrase fallback.  The 404 case works as claimed. -/
theorem response_handling_divergences :
    handle_response resp206 =
      .error (.api .generic (.str "Partial Content")
        (.str "first page of the sample collection")) ∧
    handle_response resp416 =
      .error (.api .generic (.str "unsatisfiable_range")
        (.str "Requested range not satisfiable")) ∧
    handle_response resp404 =
      .error (.api .notFound (.str "not_found") (.str "x")) ∧
    handle_response resp500 = .error .valueError ∧
    api_errors 406 = .generic ∧
    api_errors 416 = .generic ∧
    ApiErrorKind.generic ≠ .unsatisfiableRange ∧
    ApiErrorKind.generic ≠ .notAcceptable :=
  ⟨rfl, rfl, rfl, rfl, rfl, rfl, by decide, by decide⟩

/-- Counterexample to claim C6 as stated: `Session.__init__` issues no
request and leaves `_cached_uris` unresolved (resolution is not eager),
and after a failed resolution the next `uris` access performs the root
request again (a failure is retried, not fatal). -/
theorem uris_not_resolved_at_construction :
    sessionInit.cachedUris = Option.none ∧
    sessionInitCalls = [] ∧
    (urisGet "http://127.0.0.1:5000" failingRoot sessionInit).2.2 =
      ["http://127.0.0.1:5000"] ∧
    (urisGet "http://127.0.0.1:5000" failingRoot
      (urisGet "http://127.0.0.1:5000" failingRoot sessionInit).2.1).2.2 =
      ["http://127.0.0.1:5000"] :=
  ⟨rfl, rfl, rfl, rfl⟩

theorem mapMOpt_length (f : A → Option B) (xs : List A) (ys : List B)
    (h : mapMOpt f xs = some ys) : ys.length = xs.length := by
  induction xs generalizing ys with
  | nil =>
    simp only [mapMOpt, Option.some.injEq] at h
    subst h
    rfl
  | cons x rest ih =>
    rw [mapMOpt] at h
    cases hx : f x with
    | none => rw [hx] at h; simp at h
    | some y =>
      rw [hx] at h
      cases hr : mapMOpt f rest with
      | none => rw [hr] at h; simp at h
      | some ys2 =>
        rw [hr] at h
        simp only [Option.pure_def, Option.bind_eq_bind, Option.some_bind,
          Option.some.injEq] at h
        subst h
        simp [ih ys2 hr]

/-- A successfully resolved endpoint dictionary is never empty (it has
one entry per key in `uriKeys`). -/
theorem resolveUris_ne_nil (doc m : List (String × PyValue))
    (h : resolveUris doc = some m) : m ≠ [] := by
  intro he
  have := mapMOpt_length _ uriKeys m h
  rw [he] at this
  simp [uriKeys] at this

/-- Claim C6 (amended): the endpoint map is resolved lazily — not at
construction — on the first access of `uris`; a successful resolution
is cached and later accesses return the cached map without any request
(so at most one successful resolution per session); a failed
resolution leaves the cache unresolved, so the next access retries. -/
theorem uris_lazy_once_cached (apiRoot : String)
    (root root2 : Except PyExc (List (String × PyValue)))
    (doc m : List (String × PyValue)) (e : PyExc)
    (hroot : root = .ok doc) (hm : resolveUris doc = some m) :
    sessionInit.cachedUris = Option.none ∧
    sessionInitCalls = [] ∧
    urisGet apiRoot root sessionInit = (.ok m, ⟨some m⟩, [apiRoot]) ∧
    urisGet apiRoot root2 ⟨some m⟩ = (.ok m, ⟨some m⟩, []) ∧
    urisGet apiRoot (.error e) sessionInit = (.error e, sessionInit, [apiRoot]) := by
  subst hroot
  have hne : m.isEmpty = false := by
    cases m with
    | nil => exact absurd rfl (resolveUris_ne_nil doc [] hm)
    | cons p rest => rfl
  refine ⟨rfl, rfl, ?_, ?_, rfl⟩
  · simp [urisGet, sessionInit, urisGet.urisFetch, hm]
  · simp [urisGet, hne]

/-- Witness for C6 (amended): a concrete root document resolving to the
expected eight endpoints, and a concrete failure. -/
theorem uris_lazy_once_cached_witness :
    sessionInit.cachedUris = Option.none ∧
    sessionInitCalls = [] ∧
    urisGet "http://127.0.0.1:5000"
      (.ok [("authentication_uri", .str "/authentication"),
            ("users_uri", .str "/users"), ("samples_uri", .str "/samples"),
            ("variations_uri", .str "/variations"),
            ("coverages_uri", .str "/coverages"),
            ("data_sources_uri", .str "/data_sources"),
            ("annotations_uri", .str "/annotations"),
            ("variants_uri", .str "/variants")]) sessionInit =
      (.ok [("authentication", .str "/authentication"), ("users", .str "/users"),
            ("samples", .str "/samples"), ("variations", .str "/variations"),
            ("coverages", .str "/coverages"), ("data_sources", .str "/data_sources"),
            ("annotations", .str "/annotations"), ("variants", .str "/variants")],
       ⟨some [("authentication", .str "/authentication"), ("users", .str "/users"),
            ("samples", .str "/samples"), ("variations", .str "/variations"),
            ("coverages", .str "/coverages"), ("data_sources", .str "/data_sources"),
            ("annotations", .str "/annotations"), ("variants", .str "/variants")]⟩,
       ["http://127.0.0.1:5000"]) ∧
    urisGet "http://127.0.0.1:5000" failingRoot
      ⟨some [("authentication", .str "/authentication"), ("users", .str "/users"),
            ("samples", .str "/samples"), ("variations", .str "/variations"),
            ("coverages", .str "/coverages"), ("data_sources", .str "/data_sources"),
            ("annotations", .str "/annotations"), ("variants", .str "/variants")]⟩ =
      (.ok [("authentication", .str "/authentication"), ("users", .str "/users"),
            ("samples", .str "/samples"), ("variations", .str "/variations"),
            ("coverages", .str "/coverages"), ("data_sources", .str "/data_sources"),
            ("annotations", .str "/annotations"), ("variants", .str "/variants")],
       ⟨some [("authentication", .str "/authentication"), ("users", .str "/users"),
            ("samples", .str "/samples"), ("variations", .str "/variations"),
            ("coverages", .str "/coverages"), ("data_sources", .str "/data_sources"),
            ("annotations", .str "/annotations"), ("variants", .str "/variants")]⟩,
       []) ∧
    urisGet "http://127.0.0.1:5000"
      (.error (.api .generic (.str "Internal Server Error") (.str "boom")))
      sessionInit =
      (.error (.api .generic (.str "Internal Server Error") (.str "boom")),
       sessionInit, ["http://127.0.0.1:5000"]) :=
  uris_lazy_once_cached "http://127.0.0.1:5000" _ failingRoot _ _
    (.api .generic (.str "Internal Server Error") (.str "boom")) rfl rfl

/-- Claim C9: a page request whose window starts at or beyond the total
count is answered 416 and treated as exhaustion: `size` is forced to 0,
`_next` becomes `None` (and exhausted collections never fetch again),
and `next()` just stops the iteration instead of surfacing the error. -/
theorem unsatisfiable_range_exhausts (fields : List FieldDesc) (c : Nat)
    (srv : List (List (String × PyValue))) (a sz : Nat) (buf : List RState)
    (h : srv.length ≤ a) :
    serverRange srv a c = .error () ∧
    get_resources fields c srv ⟨some a, buf, sz⟩ = ⟨Option.none, buf, 0⟩ ∧
    (∀ s : CollState, s.next = Option.none → get_resources fields c srv s = s) ∧
    stepColl fields c srv ⟨some a, [], sz⟩ = Option.none := by
  have hsr : serverRange srv a c = .error () := by simp [serverRange, h]
  refine ⟨hsr, ?_, ?_, ?_⟩
  · simp [get_resources, hsr]
  · intro s hs
    obtain ⟨nxt, buf2, sz2⟩ := s
    simp only [CollState.mk.injEq] at hs ⊢
    subst hs
    simp [get_resources]
  · simp [stepColl, get_resources, hsr]

/-- Witness for C9: the first page request against an empty collection
(the `samples_admin` scenario of `test_samples_by_user`). -/
theorem unsatisfiable_range_exhausts_witness :
    serverRange [] 0 20 = .error () ∧
    get_resources (resourceFields .sample) 20 [] ⟨some 0, [], 7⟩ =
      ⟨Option.none, [], 0⟩ ∧
    (∀ s : CollState, s.next = Option.none →
      get_resources (resourceFields .sample) 20 [] s = s) ∧
    stepColl (resourceFields .sample) 20 [] ⟨some 0, [], 7⟩ = Option.none :=
  unsatisfiable_range_exhausts (resourceFields .sample) 20 [] 0 7 []
    (Nat.le_refl 0)

/-- Draining first yields whatever the buffer holds, without fetching. -/
theorem drain_buffer (fields : List FieldDesc) (c : Nat)
    (srv : List (List (String × PyValue))) :
    ∀ (B : List RState) (f : Nat) (nxt : Option Nat) (sz : Nat), B.length ≤ f →
      drainColl fields c srv f ⟨nxt, B, sz⟩ =
        B ++ drainColl fields c srv (f - B.length) ⟨nxt, [], sz⟩ := by
  intro B
  induction B with
  | nil => intro f nxt sz _; simp
  | cons x xs ih =>
    intro f nxt sz hf
    obtain ⟨f2, rfl⟩ : ∃ f2, f = f2 + 1 := ⟨f - 1, by simp at hf; omega⟩
    rw [drainColl]
    have hstep : stepColl fields c srv ⟨nxt, x :: xs, sz⟩ = some (x, ⟨nxt, xs, sz⟩) := by
      simp [stepColl]
    rw [hstep]
    show x :: drainColl fields c srv f2 ⟨nxt, xs, sz⟩ = _
    rw [ih f2 nxt sz (by simp at hf; omega)]
    have harith : f2 + 1 - (x :: xs).length = f2 - xs.length := by
      simp
    rw [harith]
    simp

/-- A successful page fetch appends the requested window to the buffer,
records the server total as `size`, and advances or exhausts `_next`. -/
theorem get_resources_page (fields : List FieldDesc) (c : Nat)
    (srv : List (List (String × PyValue))) (a : Nat) (buf : List RState) (sz : Nat)
    (ha : a < srv.length) :
    get_resources fields c srv ⟨some a, buf, sz⟩ =
      ⟨if a + c < srv.length then some (a + c) else Option.none,
       buf ++ ((srv.drop a).take c).map (load_values fields), srv.length⟩ := by
  have hna : ¬srv.length ≤ a := not_le.mpr ha
  by_cases hcc : a + c < srv.length
  · have hmin : min (a + c) srv.length = a + c := min_eq_left (le_of_lt hcc)
    simp [get_resources, serverRange, hna, hmin, hcc]
  · have hmin : min (a + c) srv.length = srv.length := min_eq_right (not_lt.mp hcc)
    simp [get_resources, serverRange, hna, hmin, hcc]

/-- An exhausted collection with an empty buffer yields nothing. -/
theorem drain_exhausted (fields : List FieldDesc) (c : Nat)
    (srv : List (List (String × PyValue))) (sz : Nat) :
    ∀ f, drainColl fields c srv f ⟨Option.none, [], sz⟩ = []
  | 0 => rfl
  | _ + 1 => rfl

/-- Draining an active collection with an empty buffer from offset `a`
yields exactly the items from `a` on, in server order, given enough
fuel. -/
theorem drain_from (fields : List FieldDesc) (c : Nat)
    (srv : List (List (String × PyValue))) (hc : 1 ≤ c) :
    ∀ (n a f sz : Nat), a < srv.length → srv.length - a ≤ n →
      srv.length - a + 1 ≤ f →
      drainColl fields c srv f ⟨some a, [], sz⟩ =
        (srv.drop a).map (load_values fields) := by
  intro n
  induction n with
  | zero => intro a f sz ha hn _; omega
  | succ n ih =>
    intro a f sz ha hn hf
    obtain ⟨f2, rfl⟩ : ∃ f2, f = f2 + 1 := ⟨f - 1, by omega⟩
    have hpage := get_resources_page fields c srv a [] sz ha
    have hlen : (((srv.drop a).take c).map (load_values fields)).length =
        min c (srv.length - a) := by
      simp [List.length_take, List.length_drop]
    obtain ⟨p, ps, hps⟩ :
        ∃ p ps, ((srv.drop a).take c).map (load_values fields) = p :: ps := by
      cases hx : ((srv.drop a).take c).map (load_values fields) with
      | nil =>
        exfalso
        rw [hx] at hlen
        simp at hlen
        omega
      | cons p ps => exact ⟨p, ps, rfl⟩
    have hpslen : ps.length + 1 = min c (srv.length - a) := by
      rw [hps] at hlen
      simpa using hlen
    rw [drainColl]
    have hstep : stepColl fields c srv ⟨some a, [], sz⟩ =
        some (p, ⟨if a + c < srv.length then some (a + c) else Option.none,
          ps, srv.length⟩) := by
      simp only [stepColl, List.isEmpty_nil, if_pos rfl, hpage]
      simp [hps]
    rw [hstep]
    show p :: drainColl fields c srv f2
      ⟨if a + c < srv.length then some (a + c) else Option.none, ps, srv.length⟩ = _
    rw [drain_buffer fields c srv ps f2 _ _ (by omega)]
    by_cases hcc : a + c < srv.length
    · rw [if_pos hcc]
      rw [ih (a + c) (f2 - ps.length) srv.length hcc (by omega) (by omega)]
      have hjoin : (srv.drop a).take c ++ srv.drop (a + c) = srv.drop a := by
        have h1 := List.take_append_drop c (srv.drop a)
        rwa [List.drop_drop c a srv] at h1
      calc p :: (ps ++ (srv.drop (a + c)).map (load_values fields))
          = (p :: ps) ++ (srv.drop (a + c)).map (load_values fields) := rfl
        _ = ((srv.drop a).take c).map (load_values fields) ++
            (srv.drop (a + c)).map (load_values fields) := by rw [hps]
        _ = (srv.drop a).map (load_values fields) := by
            rw [← List.map_append, hjoin]
    · rw [if_neg hcc]
      rw [drain_exhausted]
      have htake : (srv.drop a).take c = srv.drop a := by
        apply List.take_of_length_le
        simp [List.length_drop]
        omega
      calc p :: (ps ++ [])
          = p :: ps := by simp
        _ = ((srv.drop a).take c).map (load_values fields) := hps.symm
        _ = (srv.drop a).map (load_values fields) := by rw [htake]

/-- A freshly reset collection over a non-empty listing reports the
server total as `size` and drains to exactly the listing, in order. -/
theorem coll_run (fields : List FieldDesc) (c : Nat)
    (srv : List (List (String × PyValue))) (hc : 1 ≤ c) (hpos : 1 ≤ srv.length)
    (sz : Nat) :
    (get_resources fields c srv ⟨some 0, [], sz⟩).size = srv.length ∧
    drainColl fields c srv (srv.length + 2)
      (get_resources fields c srv ⟨some 0, [], sz⟩) =
      srv.map (load_values fields) := by
  have hpage := get_resources_page fields c srv 0 [] sz (by omega)
  constructor
  · rw [hpage]
  · rw [hpage]
    have hlen : ((srv.take c).map (load_values fields)).length = min c srv.length := by
      simp [List.length_take]
    simp only [List.drop_zero, List.nil_append] at hpage ⊢
    rw [drain_buffer fields c srv ((srv.take c).map (load_values fields))
      (srv.length + 2) _ _ (by rw [hlen]; omega)]
    by_cases hcc : 0 + c < srv.length
    · rw [if_pos hcc]
      rw [drain_from fields c srv hc srv.length (0 + c)
        (srv.length + 2 - ((srv.take c).map (load_values fields)).length)
        srv.length hcc (by omega) (by rw [hlen]; omega)]
      have hjoin : srv.take c ++ srv.drop (0 + c) = srv := by
        rw [Nat.zero_add]
        exact List.take_append_drop c srv
      rw [← List.map_append, hjoin]
    · rw [if_neg hcc]
      rw [drain_exhausted]
      have htake : srv.take c = srv := List.take_of_length_le (by omega)
      rw [htake]
      simp

/-- Claim C4: over a server listing of `2*c + 3` items (`c` the page
size), a freshly constructed collection already reports
`size = 2*c + 3` from the eager first-page fetch, and iterating it
yields exactly the `2*c + 3` resources in server order; after one
server-side deletion, `reset()` re-iterates to the remaining `2*c + 2`
items with `size` updated accordingly. -/
theorem collection_pagination (fields : List FieldDesc) (c : Nat)
    (srv srv2 : List (List (String × PyValue))) (i : Nat) (hc : 1 ≤ c)
    (hlen : srv.length = 2 * c + 3) (hi : i < srv.length)
    (hdel : srv2 = srv.eraseIdx i) :
    (mkColl fields c srv).size = 2 * c + 3 ∧
    drainColl fields c srv (srv.length + 2) (mkColl fields c srv) =
      srv.map (load_values fields) ∧
    ∀ s : CollState, (resetColl fields c srv2 s).size = 2 * c + 2 ∧
      drainColl fields c srv2 (srv2.length + 2) (resetColl fields c srv2 s) =
        srv2.map (load_values fields) := by
  have h2 : srv2.length = 2 * c + 2 := by
    rw [hdel, List.length_eraseIdx_of_lt hi]
    omega
  have run1 := coll_run fields c srv hc (by omega) 0
  refine ⟨?_, run1.2, ?_⟩
  · rw [show mkColl fields c srv = get_resources fields c srv ⟨some 0, [], 0⟩ from rfl,
      run1.1, hlen]
  · intro s
    have run2 := coll_run fields c srv2 hc (by omega) s.size
    exact ⟨by rw [show resetColl fields c srv2 s =
        get_resources fields c srv2 ⟨some 0, [], s.size⟩ from rfl, run2.1, h2],
      run2.2⟩

/-- Witness for C4: page size 1 over a five-item listing, then the
listing with its first item deleted. -/
theorem collection_pagination_witness :
    (mkColl (resourceFields .sample) 1 [[("uri", PyValue.str "/samples/1")], [("uri", PyValue.str "/samples/2")],
      [("uri", PyValue.str "/samples/3")], [("uri", PyValue.str "/samples/4")],
      [("uri", PyValue.str "/samples/5")]]).size = 2 * 1 + 3 ∧
    drainColl (resourceFields .sample) 1 [[("uri", PyValue.str "/samples/1")], [("uri", PyValue.str "/samples/2")],
      [("uri", PyValue.str "/samples/3")], [("uri", PyValue.str "/samples/4")],
      [("uri", PyValue.str "/samples/5")]] 7
      (mkColl (resourceFields .sample) 1 [[("uri", PyValue.str "/samples/1")], [("uri", PyValue.str "/samples/2")],
        [("uri", PyValue.str "/samples/3")], [("uri", PyValue.str "/samples/4")],
        [("uri", PyValue.str "/samples/5")]]) =
      [[("uri", PyValue.str "/samples/1")], [("uri", PyValue.str "/samples/2")],
        [("uri", PyValue.str "/samples/3")], [("uri", PyValue.str "/samples/4")],
        [("uri", PyValue.str "/samples/5")]].map (load_values (resourceFields .sample)) ∧
    (∀ s : CollState,
      (resetColl (resourceFields .sample) 1 [[("uri", PyValue.str "/samples/2")], [("uri", PyValue.str "/samples/3")],
        [("uri", PyValue.str "/samples/4")], [("uri", PyValue.str "/samples/5")]] s).size =
        2 * 1 + 2 ∧
      drainColl (resourceFields .sample) 1 [[("uri", PyValue.str "/samples/2")], [("uri", PyValue.str "/samples/3")],
        [("uri", PyValue.str "/samples/4")], [("uri", PyValue.str "/samples/5")]] 6
        (resetColl (resourceFields .sample) 1 [[("uri", PyValue.str "/samples/2")], [("uri", PyValue.str "/samples/3")],
          [("uri", PyValue.str "/samples/4")], [("uri", PyValue.str "/samples/5")]] s) =
        [[("uri", PyValue.str "/samples/2")], [("uri", PyValue.str "/samples/3")],
          [("uri", PyValue.str "/samples/4")],
          [("uri", PyValue.str "/samples/5")]].map (load_values (resourceFields .sample))) :=
  collection_pagination (resourceFields .sample) 1
    [[("uri", PyValue.str "/samples/1")], [("uri", PyValue.str "/samples/2")],
      [("uri", PyValue.str "/samples/3")], [("uri", PyValue.str "/samples/4")],
      [("uri", PyValue.str "/samples/5")]]
    [[("uri", PyValue.str "/samples/2")], [("uri", PyValue.str "/samples/3")],
      [("uri", PyValue.str "/samples/4")], [("uri", PyValue.str "/samples/5")]]
    0 (Nat.le_refl 1) rfl (by decide) rfl

end Manwe
